import Mathlib

/-!
Verification of the combat core of the Oplus game repository.

The Rust source is shallowly embedded over `ℚ` (the game's `f32` arithmetic
uses only +, -, *, comparisons and exactly-representable literals at the
places the claims touch, so rationals model it exactly).  Euclidean
`distance(a, b) <= r` tests (which in Rust go through a square root) are
embedded as the equivalent `dist2 a b <= r^2` on squared distances, valid
because both sides are nonnegative.  `Vec2::normalize_or_zero` is not exactly
representable over `ℚ`; functions whose Rust originals normalize an incoming
aim vector therefore take the already-normalized facing vector as a
parameter, and theorems that depend on the geometry carry a unit-vector
hypothesis.  Entities are `Nat` handles; Bevy component removal/despawn is
embedded as `Option`/list filtering, and the ECS `Commands` pool push as a
list append.
-/

namespace Oplus

/-- 2-D vector, embedding Bevy's `Vec2`. -/
abbrev Vec2 : Type := ℚ × ℚ

/-- Vector addition. -/
def vadd (a b : Vec2) : Vec2 := (a.1 + b.1, a.2 + b.2)

/-- Vector subtraction (`a - b`). -/
def vsub (a b : Vec2) : Vec2 := (a.1 - b.1, a.2 - b.2)

/-- Scalar multiple `c * v`. -/
def smul (c : ℚ) (v : Vec2) : Vec2 := (c * v.1, c * v.2)

/-- Dot product, embedding `Vec2::dot`. -/
def dot (a b : Vec2) : ℚ := a.1 * b.1 + a.2 * b.2

/-- The perpendicular "right" axis `Vec2::new(-forward.y, forward.x)`
computed from a forward axis in `perform_melee_attack` / `skill_slash`. -/
def rightOf (f : Vec2) : Vec2 := (-f.2, f.1)

/-- Squared Euclidean distance; `a.distance(b) <= r` in the source is
embedded as `dist2 a b <= r^2`. -/
def dist2 (a b : Vec2) : ℚ := (a.1 - b.1) ^ 2 + (a.2 - b.2) ^ 2

/-- A unit vector: the exact outcome of `normalize()` on a nonzero vector. -/
def unitVec (v : Vec2) : Prop := v.1 ^ 2 + v.2 ^ 2 = 1

instance (v : Vec2) : Decidable (unitVec v) := by
  unfold unitVec; infer_instance

/-- `Health` component (src/src/health.rs lines 7-11). -/
structure Health where
  current : ℚ
  max : ℚ
deriving DecidableEq, Repr

/-- `Health::new(max)` (src/src/health.rs lines 13-17). -/
def Health.new (max : ℚ) : Health := { current := max, max := max }

/-- One row of the Bevy query `(Entity, &Transform, &mut Health)` over
enemies: an enemy actor with its entity handle, world position (the
`Transform` truncated to 2-D) and health. -/
structure EnemyActor where
  id : Nat
  pos : Vec2
  hp : Health
deriving DecidableEq, Repr

/-- The hit predicate of `perform_melee_attack` (src/src/combat.rs lines
187-195): project the target's offset from the origin onto the forward and
right axes and test `d_forward >= 0.0 && d_forward <= length &&
d_side.abs() <= width * 0.5`. -/
def melee_hit (origin forward : Vec2) (length width : ℚ) (target : Vec2) : Bool :=
  let to_target := vsub target origin
  let d_forward := dot to_target forward
  let d_side := dot to_target (rightOf forward)
  decide (0 ≤ d_forward ∧ d_forward ≤ length ∧ |d_side| ≤ width * 0.5)

/-- `perform_melee_attack` (src/src/combat.rs lines 173-196).  The source
computes `forward = dir.normalize_or_zero()` and returns early when it is
zero; the embedding takes the normalized `forward` directly (normalization
is not exact over `ℚ`) and keeps the zero guard.  Every enemy inside the
oriented rectangle loses `damage` health. -/
def perform_melee_attack (origin forward : Vec2) (length width damage : ℚ)
    (enemies : List EnemyActor) : List EnemyActor :=
  if forward = ((0 : ℚ), (0 : ℚ)) then enemies
  else
    enemies.map fun e =>
      if melee_hit origin forward length width e.pos then
        { e with hp := { e.hp with current := e.hp.current - damage } }
      else e

/-- Constants of the Slash skill (src/src/combat_core.rs lines 103-106 and
identically src/src/combat.rs lines 205-210): `length = 260.0`,
`width = 100.0`, `damage = 60.0`, `EPS = 6.0`. -/
def SLASH_LENGTH : ℚ := 260
def SLASH_WIDTH : ℚ := 100
def SLASH_DAMAGE : ℚ := 60
def SLASH_EPS : ℚ := 6

/-- The hit predicate of `skill_slash` (src/src/combat_core.rs line 119,
src/src/combat.rs line 234): `d_forward >= -EPS && d_forward <= length + EPS
&& d_side.abs() <= (width * 0.5 + EPS)`. -/
def slash_hit (origin forward : Vec2) (target : Vec2) : Bool :=
  let to_target := vsub target origin
  let d_forward := dot to_target forward
  let d_side := dot to_target (rightOf forward)
  decide (-SLASH_EPS ≤ d_forward ∧ d_forward ≤ SLASH_LENGTH + SLASH_EPS ∧
    |d_side| ≤ SLASH_WIDTH * 0.5 + SLASH_EPS)

/-- `skill_slash` (src/src/combat_core.rs lines 98-123, identical hit logic
in src/src/combat.rs lines 199-256).  The source falls back to `Vec2::Y`
when the aim direction is zero and otherwise normalizes it; the embedding
takes the resulting `forward` directly.  Every enemy inside the
EPS-tolerant rectangle loses `SLASH_DAMAGE` health. -/
def skill_slash (origin forward : Vec2) (enemies : List EnemyActor) : List EnemyActor :=
  enemies.map fun e =>
    if slash_hit origin forward e.pos then
      { e with hp := { e.hp with current := e.hp.current - SLASH_DAMAGE } }
    else e

/-- `Projectile` component (src/src/combat_core.rs lines 28-35). -/
structure Projectile where
  direction : Vec2
  speed : ℚ
  lifetime : ℚ
  damage : ℚ
  from_player : Bool
deriving DecidableEq, Repr

/-- The player row of the query `(&Transform, &mut Health)`: position plus
health.  `player_q.single_mut()` yielding `Err` is embedded as `none`. -/
structure PlayerActor where
  pos : Vec2
  hp : Health
deriving DecidableEq, Repr

/-- The fixed projectile hit radius `hit_radius = 12.0`
(src/src/combat_core.rs line 226). -/
def HIT_RADIUS : ℚ := 12

/-- `dist <= hit_radius` on squared distances (see the header note). -/
def within_hit_radius (a b : Vec2) : Bool := decide (dist2 a b ≤ HIT_RADIUS ^ 2)

/-- Outcome of one projectile's per-frame step inside `update_projectiles`
(src/src/combat_core.rs lines 214-251): `proj = none` embeds
`remove::<Projectile>()` (the entity keeps its `Transform`, recorded in
`pos`); `pool` is the projectile pool free list, pushed via
`pool.free.push(proj_entity)`. -/
structure ProjStepResult where
  proj : Option Projectile
  pos : Vec2
  enemies : List EnemyActor
  player : Option PlayerActor
  pool : List Nat
deriving DecidableEq, Repr

/-- The body of the per-projectile loop of `update_projectiles`
(src/src/combat_core.rs lines 198-252): decrement `lifetime` by `dt`; if it
is `<= 0`, remove the `Projectile` component and push the handle onto the
pool free list without touching the `Transform`; otherwise translate by
`direction * speed * dt`, then — for a player projectile — damage every
enemy within `hit_radius` and retire to the pool iff at least one was hit,
and — for an enemy projectile — damage the single player if within
`hit_radius` and retire on that hit. -/
def update_projectile (dt : ℚ) (p : Projectile) (pid : Nat) (pos : Vec2)
    (enemies : List EnemyActor) (player : Option PlayerActor) (pool : List Nat) :
    ProjStepResult :=
  let lifetime2 := p.lifetime - dt
  if lifetime2 ≤ 0 then
    { proj := none, pos := pos, enemies := enemies, player := player,
      pool := pool ++ [pid] }
  else
    let pos2 := vadd pos (smul dt (smul p.speed p.direction))
    if p.from_player then
      let hit := enemies.any fun e => within_hit_radius e.pos pos2
      let enemies2 := enemies.map fun e =>
        if within_hit_radius e.pos pos2 then
          { e with hp := { e.hp with current := e.hp.current - p.damage } }
        else e
      if hit then
        { proj := none, pos := pos2, enemies := enemies2, player := player,
          pool := pool ++ [pid] }
      else
        { proj := some { p with lifetime := lifetime2 }, pos := pos2,
          enemies := enemies2, player := player, pool := pool }
    else
      match player with
      | none =>
          { proj := some { p with lifetime := lifetime2 }, pos := pos2,
            enemies := enemies, player := none, pool := pool }
      | some pl =>
          if within_hit_radius pl.pos pos2 then
            { proj := none, pos := pos2, enemies := enemies,
              player := some { pl with hp := { pl.hp with current := pl.hp.current - p.damage } },
              pool := pool ++ [pid] }
          else
            { proj := some { p with lifetime := lifetime2 }, pos := pos2,
              enemies := enemies, player := some pl, pool := pool }

/-- `WeaponKind` (src/src/equipment.rs line 28). -/
inductive WeaponKind where
  | Melee
  | Ranged
deriving DecidableEq, Repr

/-- The fields of `EquipmentSet` read by the combat systems
(src/src/equipment.rs lines 36-47). -/
structure EquipmentSet where
  weapon_kind : WeaponKind
  weapon_damage : ℚ
  weapon_attack_cooldown : ℚ
  weapon_projectile_speed : ℚ
  weapon_projectile_lifetime : ℚ
  melee_range : ℚ
  melee_width : ℚ
deriving DecidableEq, Repr

/-- `AttackState` (src/src/combat.rs lines 18-24). -/
structure AttackState where
  basic_cooldown : ℚ
  slash_cooldown : ℚ
deriving DecidableEq, Repr

/-- `tick_attack_state` for one actor (src/src/combat.rs lines 104-114):
each positive cooldown is decremented by `dt`, floored at 0. -/
def tick_attack_state (dt : ℚ) (s : AttackState) : AttackState :=
  { basic_cooldown :=
      if s.basic_cooldown > 0 then max (s.basic_cooldown - dt) 0 else s.basic_cooldown,
    slash_cooldown :=
      if s.slash_cooldown > 0 then max (s.slash_cooldown - dt) 0 else s.slash_cooldown }

/-- `spawn_projectile` (src/src/combat.rs lines 306-334): given the
already-normalized forward vector (the source normalizes and bails out on
zero), spawn a player projectile at `origin`. -/
def spawn_projectile (origin forward : Vec2) (speed lifetime damage : ℚ) :
    Option (Projectile × Vec2) :=
  if forward = ((0 : ℚ), (0 : ℚ)) then none
  else
    some ({ direction := forward, speed := speed, lifetime := lifetime,
            damage := damage, from_player := true }, origin)

/-- Outcome of `handle_basic_attack` (src/src/combat.rs lines 119-170):
the player's updated `AttackState`, the updated enemies, and the spawned
projectile (with its spawn position) when the ranged branch fired. -/
structure BasicAttackResult where
  state : AttackState
  enemies : List EnemyActor
  spawned : Option (Projectile × Vec2)
deriving DecidableEq, Repr

/-- `handle_basic_attack` (src/src/combat.rs lines 119-170), after the
mouse-press and player-lookup guards: if `basic_cooldown > 0.0` the whole
invocation is a no-op; otherwise dispatch on the weapon kind — melee
applies `weapon_damage * 1.5` through `perform_melee_attack`, ranged spawns
a projectile carrying `weapon_damage * 1.3` — and in either case reset
`basic_cooldown` to `weapon_attack_cooldown`.  `dir` is the resolved aim
direction (`movement.normalize()` or the `Vec2::Y` fallback). -/
def handle_basic_attack (player_pos dir : Vec2) (equip : EquipmentSet)
    (state : AttackState) (enemies : List EnemyActor) : BasicAttackResult :=
  if state.basic_cooldown > 0 then
    { state := state, enemies := enemies, spawned := none }
  else
    match equip.weapon_kind with
    | WeaponKind.Melee =>
        let damage := equip.weapon_damage * 1.5
        { state := { state with basic_cooldown := equip.weapon_attack_cooldown },
          enemies := perform_melee_attack player_pos dir equip.melee_range
            equip.melee_width damage enemies,
          spawned := none }
    | WeaponKind.Ranged =>
        let damage := equip.weapon_damage * 1.3
        { state := { state with basic_cooldown := equip.weapon_attack_cooldown },
          enemies := enemies,
          spawned := spawn_projectile player_pos dir equip.weapon_projectile_speed
            equip.weapon_projectile_lifetime damage }

/-- `cleanup_dead_enemies` (src/src/combat.rs lines 337-348): despawn every
enemy with `hp.current <= 0.0`; the embedded value is the list of enemies
still in the world afterwards. -/
def cleanup_dead_enemies (enemies : List EnemyActor) : List EnemyActor :=
  enemies.filter fun e => !(decide (e.hp.current ≤ 0))

/-- `check_player_death` (src/src/health.rs lines 31-44): if the player's
health is `<= 0.0`, despawn the player and switch to `GameOver` (the `Bool`
of the result). -/
def check_player_death (player : Option PlayerActor) : Option PlayerActor × Bool :=
  match player with
  | none => (none, false)
  | some pl => if pl.hp.current ≤ 0 then (none, true) else (some pl, false)

/-- `process_enemy_death` (src/src/combat.rs lines 510-526): for every
enemy with `hp.current <= 0.0`, despawn its HP-bar indicator, drop its
entry from the owner→indicator map, and despawn the enemy itself.  The map
is embedded as an association list `owner id ↦ bar id`. -/
def process_enemy_death (enemies : List EnemyActor) (bar_map : List (Nat × Nat)) :
    List EnemyActor × List (Nat × Nat) :=
  (enemies.filter fun e => !(decide (e.hp.current ≤ 0)),
   bar_map.filter fun kv =>
     !(enemies.any fun e => e.id == kv.1 && decide (e.hp.current ≤ 0)))

/-- The "damaged but alive" collection pass of the `combat.rs`
`sync_enemy_hp_bars` (src/src/combat.rs lines 405-412): enemies with
`0 < current < max`, sorted by entity index. -/
def damaged_enemies (enemies : List EnemyActor) : List EnemyActor :=
  (enemies.filter fun e => decide (0 < e.hp.current) && decide (e.hp.current < e.hp.max)).mergeSort
    fun a b => a.id ≤ b.id

/-- The per-enemy body of the creation loop of the `combat.rs`
`sync_enemy_hp_bars` (src/src/combat.rs lines 418-467): reuse the mapped
bar if one exists, else spawn a fresh one (`acc.2` is the fresh-entity
counter) and insert it into the map. -/
def combat_bar_step (acc : List (Nat × Nat) × Nat) (e : EnemyActor) :
    List (Nat × Nat) × Nat :=
  if acc.1.any fun kv => kv.1 == e.id then acc
  else (acc.1 ++ [(e.id, acc.2)], acc.2 + 1)

/-- `sync_enemy_hp_bars` of src/src/combat.rs (lines 393-508), reduced to
its effect on the owner→indicator map: for each damaged-but-alive enemy (in
sorted order) create a bar if none is mapped (`next` is the fresh-entity
counter standing for `commands.spawn`), then drop every entry whose owner
is not in this frame's damaged set.  Node-position and fill-width updates
touch only presentation fields of existing bars and are not modelled. -/
def sync_enemy_hp_bars_combat (enemies : List EnemyActor)
    (bar_map : List (Nat × Nat)) (next : Nat) : List (Nat × Nat) × Nat :=
  let damaged := damaged_enemies enemies
  let created := damaged.foldl combat_bar_step (bar_map, next)
  (created.1.filter fun kv => damaged.any fun e => e.id == kv.1, created.2)

/-- An indicator entry of the `combat_core.rs` map: the bar entity and the
`ratio = health.current / health.max` it is created with
(src/src/combat_core.rs line 271; the source names the field `ratio`). -/
structure CoreBar where
  bar : Nat
  frac : ℚ
deriving DecidableEq, Repr

/-- `sync_enemy_hp_bars` of src/src/combat_core.rs (lines 254-295): every
enemy with `current > 0.0` (full health included) is kept in `seen` and
given an indicator if it has none, created with `ratio = current / max`;
entries whose owner is not in `seen` are removed.  Text updates on existing
bars are presentation-only and not modelled. -/
def sync_enemy_hp_bars_core (enemies : List EnemyActor)
    (bar_map : List (Nat × CoreBar)) (next : Nat) : List (Nat × CoreBar) × Nat :=
  let seen := enemies.filter fun e => !(decide (e.hp.current ≤ 0))
  let created := enemies.foldl
    (fun acc e =>
      if e.hp.current ≤ 0 then acc
      else if acc.1.any fun kv => kv.1 == e.id then acc
      else (acc.1 ++ [(e.id, { bar := acc.2, frac := e.hp.current / e.hp.max })], acc.2 + 1))
    (bar_map, next)
  (created.1.filter fun kv => seen.any fun e => e.id == kv.1, created.2)

/-- `SkillId` (src/src/skills.rs lines 20-25). -/
inductive SkillId where
  | Dash
  | Slash
deriving DecidableEq, Repr

/-- One non-Dash `SkillCard` entity as collected into `non_dash_entities`
by `use_number_key_skills` (src/src/skills.rs lines 234-243), in query
order: position `i` of the list is rotating slot `i + 1`. -/
structure SkillCardEntry where
  ent : Nat
  id : SkillId
deriving DecidableEq, Repr

/-- `PlayerDash` (src/src/movement.rs lines 83-88). -/
structure PlayerDash where
  is_dashing : Bool
  remaining : ℚ
  cooldown : ℚ
  direction : Vec2
deriving DecidableEq, Repr

/-- `DASH_DURATION = 0.4`, `DASH_COOLDOWN = 10.0`
(src/src/movement.rs lines 24-25). -/
def DASH_DURATION : ℚ := 0.4
def DASH_COOLDOWN : ℚ := 10

/-- `trigger_dash_skill` (src/src/skills.rs lines 332-355): no-op when the
movement input is zero, the player is missing, a dash is in flight, or the
dash cooldown is positive; otherwise start a dash.  The source stores
`input_dir.normalize()`; normalization is inexact over `ℚ`, so the raw
input vector is stored — no claim depends on the stored direction. -/
def trigger_dash_skill (movement : Vec2) (dash : Option PlayerDash) :
    Option PlayerDash :=
  if movement = ((0 : ℚ), (0 : ℚ)) then dash
  else
    match dash with
    | none => none
    | some d =>
        if d.is_dashing || decide (d.cooldown > 0) then some d
        else
          some { is_dashing := true, remaining := DASH_DURATION,
                 cooldown := DASH_COOLDOWN, direction := movement }

/-- Outcome of one `use_number_key_skills` invocation: the surviving
non-Dash cards (in slot order), updated enemies, dash state, and the
player's `AttackState` — the source never reads or writes `AttackState`
here, so it is a pass-through recording that no slot cooldown is consulted
or started. -/
structure SkillUseResult where
  cards : List SkillCardEntry
  enemies : List EnemyActor
  dash : Option PlayerDash
  state : AttackState
deriving DecidableEq, Repr

/-- `use_number_key_skills` (src/src/skills.rs lines 204-311), after the
key-press decode (`target_index` = pressed digit minus one): slot 0
triggers the dash; slots 1..4 index `non_dash_entities` — out of range is a
no-op, a Slash card requires the player (else no-op without consuming the
card), casts `skill_slash` at the player's position along the resolved
facing `dir`, and is then despawned; remaining cards re-pack from slot 1.
`dir` is the source's resolved facing (normalized movement, else the
animation facing, else `(0, -1)`). -/
def use_number_key_skills (target_index : Nat) (has_dash : Bool)
    (cards : List SkillCardEntry) (movement dir : Vec2)
    (player_pos : Option Vec2) (dash : Option PlayerDash)
    (enemies : List EnemyActor) (state : AttackState) : SkillUseResult :=
  if target_index = 0 then
    { cards := cards, enemies := enemies,
      dash := if has_dash then trigger_dash_skill movement dash else dash,
      state := state }
  else
    match cards[target_index - 1]? with
    | none => { cards := cards, enemies := enemies, dash := dash, state := state }
    | some card =>
        match card.id with
        | SkillId.Slash =>
            match player_pos with
            | none =>
                { cards := cards, enemies := enemies, dash := dash, state := state }
            | some pos =>
                { cards := cards.eraseIdx (target_index - 1),
                  enemies := skill_slash pos dir enemies,
                  dash := dash, state := state }
        | SkillId.Dash =>
            { cards := cards.eraseIdx (target_index - 1), enemies := enemies,
              dash := trigger_dash_skill movement dash, state := state }

/-- The point at forward-offset `a` and right-offset `b` from `origin`
in the attacker's frame: `origin + a * forward + b * right`. -/
def relPoint (origin f : Vec2) (a b : ℚ) : Vec2 :=
  vadd origin (vadd (smul a f) (smul b (rightOf f)))

lemma proj_forward (origin f : Vec2) (a b : ℚ) (hf : unitVec f) :
    dot (vsub (relPoint origin f a b) origin) f = a := by
  unfold unitVec at hf
  simp only [relPoint, dot, vsub, vadd, smul, rightOf]
  ring_nf
  linear_combination a * hf

lemma proj_side (origin f : Vec2) (a b : ℚ) (hf : unitVec f) :
    dot (vsub (relPoint origin f a b) origin) (rightOf f) = b := by
  unfold unitVec at hf
  simp only [relPoint, dot, vsub, vadd, smul, rightOf]
  ring_nf
  linear_combination b * hf

lemma unitVec_ne_zero {f : Vec2} (hf : unitVec f) : f ≠ ((0 : ℚ), (0 : ℚ)) := by
  intro h
  rw [h] at hf
  unfold unitVec at hf
  norm_num at hf

/-- C2: for the basic melee attack (attacker origin, normalized forward
axis, perpendicular right axis) a candidate is hit iff its forward
projection lies in `[0, range]` and its side projection's absolute value is
at most `width/2`; every qualifying candidate has `damage` subtracted from
its health in the same resolution (no single-target cap); a target at
relative position `(range/2, 0)` is hit and one at
`(range/2, width/2 + 0.01)` is not. -/
theorem melee_rectangle_spec (origin f : Vec2) (length width damage a b : ℚ)
    (enemies : List EnemyActor) (hf : unitVec f) (hlen : 0 ≤ length)
    (hwid : 0 ≤ width) :
    (melee_hit origin f length width (relPoint origin f a b) = true ↔
      0 ≤ a ∧ a ≤ length ∧ |b| ≤ width * 0.5) ∧
    perform_melee_attack origin f length width damage enemies =
      enemies.map (fun e =>
        if melee_hit origin f length width e.pos then
          { e with hp := { e.hp with current := e.hp.current - damage } }
        else e) ∧
    melee_hit origin f length width (relPoint origin f (length / 2) 0) = true ∧
    melee_hit origin f length width
      (relPoint origin f (length / 2) (width * 0.5 + 0.01)) = false := by
  have hchar : ∀ a b : ℚ,
      melee_hit origin f length width (relPoint origin f a b) = true ↔
        0 ≤ a ∧ a ≤ length ∧ |b| ≤ width * 0.5 := by
    intro a b
    unfold melee_hit
    rw [decide_eq_true_iff, proj_forward origin f a b hf, proj_side origin f a b hf]
  refine ⟨hchar a b, ?_, ?_, ?_⟩
  · unfold perform_melee_attack
    rw [if_neg (unitVec_ne_zero hf)]
  · exact (hchar (length / 2) 0).mpr
      ⟨by linarith, by linarith, by simpa using by linarith⟩
  · rw [Bool.eq_false_iff]
    intro hhit
    rcases (hchar (length / 2) (width * 0.5 + 0.01)).mp hhit with ⟨-, -, habs⟩
    rcases abs_le.mp habs with ⟨-, h2⟩
    linarith

/-- Witness for `melee_rectangle_spec` at origin `(0,0)`, forward `(0,1)`,
range `80`, width `40`: the target at `(range/2, 0)` is hit. -/
theorem melee_rectangle_spec_witness :
    melee_hit ((0 : ℚ), (0 : ℚ)) ((0 : ℚ), (1 : ℚ)) 80 40
      (relPoint ((0 : ℚ), (0 : ℚ)) ((0 : ℚ), (1 : ℚ)) (80 / 2) 0) = true :=
  (melee_rectangle_spec ((0 : ℚ), (0 : ℚ)) ((0 : ℚ), (1 : ℚ)) 80 40 30 0 0 []
    (by simp [Oplus.unitVec]) (by norm_num) (by norm_num)).2.2.1

/-- C3: the Slash skill's hit test is the melee rectangle with its own
constants (length 260, width 100, damage 60) and tolerance `EPS = 6` on
both bounds: hit iff the forward projection lies in `[-EPS, length + EPS]`
and the side projection's absolute value is at most `width/2 + EPS`; every
enemy passing the test loses `SLASH_DAMAGE`; a target at `(-EPS/2, 0)` is
hit by Slash but not by the basic melee attack (any range/width), which
has no tolerance. -/
theorem slash_tolerance_spec (origin f : Vec2) (a b : ℚ)
    (enemies : List EnemyActor) (hf : unitVec f) :
    (slash_hit origin f (relPoint origin f a b) = true ↔
      -SLASH_EPS ≤ a ∧ a ≤ SLASH_LENGTH + SLASH_EPS ∧
        |b| ≤ SLASH_WIDTH * 0.5 + SLASH_EPS) ∧
    skill_slash origin f enemies =
      enemies.map (fun e =>
        if slash_hit origin f e.pos then
          { e with hp := { e.hp with current := e.hp.current - SLASH_DAMAGE } }
        else e) ∧
    slash_hit origin f (relPoint origin f (-(SLASH_EPS / 2)) 0) = true ∧
    (∀ length width : ℚ,
      melee_hit origin f length width
        (relPoint origin f (-(SLASH_EPS / 2)) 0) = false) := by
  have hchar : ∀ a b : ℚ,
      slash_hit origin f (relPoint origin f a b) = true ↔
        -SLASH_EPS ≤ a ∧ a ≤ SLASH_LENGTH + SLASH_EPS ∧
          |b| ≤ SLASH_WIDTH * 0.5 + SLASH_EPS := by
    intro a b
    unfold slash_hit
    rw [decide_eq_true_iff, proj_forward origin f a b hf, proj_side origin f a b hf]
  refine ⟨hchar a b, rfl, ?_, ?_⟩
  · exact (hchar (-(SLASH_EPS / 2)) 0).mpr
      ⟨by unfold SLASH_EPS; norm_num, by unfold SLASH_EPS SLASH_LENGTH; norm_num,
       by unfold SLASH_EPS SLASH_WIDTH; simp; norm_num⟩
  · intro length width
    rw [Bool.eq_false_iff]
    intro hhit
    unfold melee_hit at hhit
    rw [decide_eq_true_iff,
      proj_forward origin f (-(SLASH_EPS / 2)) 0 hf] at hhit
    rcases hhit with ⟨h0, -, -⟩
    unfold SLASH_EPS at h0
    linarith

/-- Witness for `slash_tolerance_spec` at origin `(0,0)`, forward `(0,1)`:
the target at `(-EPS/2, 0)` is hit by Slash. -/
theorem slash_tolerance_spec_witness :
    slash_hit ((0 : ℚ), (0 : ℚ)) ((0 : ℚ), (1 : ℚ))
      (relPoint ((0 : ℚ), (0 : ℚ)) ((0 : ℚ), (1 : ℚ)) (-(SLASH_EPS / 2)) 0) = true :=
  (slash_tolerance_spec ((0 : ℚ), (0 : ℚ)) ((0 : ℚ), (1 : ℚ)) 0 0 []
    (by simp [Oplus.unitVec])).2.2.1

lemma update_projectile_expired (dt : ℚ) (p : Projectile) (pid : Nat)
    (pos : Vec2) (enemies : List EnemyActor) (player : Option PlayerActor)
    (pool : List Nat) (hexp : p.lifetime - dt ≤ 0) :
    update_projectile dt p pid pos enemies player pool =
      { proj := none, pos := pos, enemies := enemies, player := player,
        pool := pool ++ [pid] } := by
  unfold update_projectile
  rw [if_pos hexp]

lemma update_projectile_active_player (dt : ℚ) (p : Projectile) (pid : Nat)
    (pos : Vec2) (enemies : List EnemyActor) (player : Option PlayerActor)
    (pool : List Nat) (hne : ¬ p.lifetime - dt ≤ 0) (hfp : p.from_player = true) :
    update_projectile dt p pid pos enemies player pool =
      if (enemies.any fun e =>
            within_hit_radius e.pos (vadd pos (smul dt (smul p.speed p.direction)))) then
        { proj := none, pos := vadd pos (smul dt (smul p.speed p.direction)),
          enemies := enemies.map (fun e =>
            if within_hit_radius e.pos (vadd pos (smul dt (smul p.speed p.direction))) then
              { e with hp := { e.hp with current := e.hp.current - p.damage } }
            else e),
          player := player, pool := pool ++ [pid] }
      else
        { proj := some { p with lifetime := p.lifetime - dt },
          pos := vadd pos (smul dt (smul p.speed p.direction)),
          enemies := enemies.map (fun e =>
            if within_hit_radius e.pos (vadd pos (smul dt (smul p.speed p.direction))) then
              { e with hp := { e.hp with current := e.hp.current - p.damage } }
            else e),
          player := player, pool := pool } := by
  unfold update_projectile
  rw [if_neg hne, hfp]
  rfl

lemma update_projectile_active_enemy (dt : ℚ) (p : Projectile) (pid : Nat)
    (pos : Vec2) (enemies : List EnemyActor) (pl : PlayerActor)
    (pool : List Nat) (hne : ¬ p.lifetime - dt ≤ 0) (hfp : p.from_player = false) :
    update_projectile dt p pid pos enemies (some pl) pool =
      if within_hit_radius pl.pos (vadd pos (smul dt (smul p.speed p.direction))) then
        { proj := none, pos := vadd pos (smul dt (smul p.speed p.direction)),
          enemies := enemies,
          player := some { pl with hp := { pl.hp with current := pl.hp.current - p.damage } },
          pool := pool ++ [pid] }
      else
        { proj := some { p with lifetime := p.lifetime - dt },
          pos := vadd pos (smul dt (smul p.speed p.direction)),
          enemies := enemies, player := some pl, pool := pool } := by
  unfold update_projectile
  rw [if_neg hne, hfp]
  rfl

/-- C1: each frame a projectile first has its lifetime decremented by `dt`;
if the result is `<= 0` it is retired (component removed, handle pushed on
the pool free list) without moving; otherwise it is translated by
`direction * speed * dt`, every opposing-faction target within the fixed
hit radius takes its damage, and it is retired to the pool that same frame
iff at least one target was within radius. -/
theorem update_projectile_frame_spec (dt : ℚ) (p : Projectile) (pid : Nat)
    (pos : Vec2) (enemies : List EnemyActor) (player : Option PlayerActor)
    (pool : List Nat) :
    (p.lifetime - dt ≤ 0 →
      update_projectile dt p pid pos enemies player pool =
        { proj := none, pos := pos, enemies := enemies, player := player,
          pool := pool ++ [pid] }) ∧
    (0 < p.lifetime - dt → p.from_player = true →
      (update_projectile dt p pid pos enemies player pool).pos =
        vadd pos (smul dt (smul p.speed p.direction)) ∧
      (update_projectile dt p pid pos enemies player pool).enemies =
        enemies.map (fun e =>
          if within_hit_radius e.pos (vadd pos (smul dt (smul p.speed p.direction))) then
            { e with hp := { e.hp with current := e.hp.current - p.damage } }
          else e) ∧
      ((enemies.any fun e =>
          within_hit_radius e.pos (vadd pos (smul dt (smul p.speed p.direction)))) = true →
        (update_projectile dt p pid pos enemies player pool).proj = none ∧
        (update_projectile dt p pid pos enemies player pool).pool = pool ++ [pid]) ∧
      ((enemies.any fun e =>
          within_hit_radius e.pos (vadd pos (smul dt (smul p.speed p.direction)))) = false →
        (update_projectile dt p pid pos enemies player pool).proj =
          some { p with lifetime := p.lifetime - dt } ∧
        (update_projectile dt p pid pos enemies player pool).pool = pool)) ∧
    (0 < p.lifetime - dt → p.from_player = false → ∀ pl, player = some pl →
      (within_hit_radius pl.pos (vadd pos (smul dt (smul p.speed p.direction))) = true →
        update_projectile dt p pid pos enemies player pool =
          { proj := none, pos := vadd pos (smul dt (smul p.speed p.direction)),
            enemies := enemies,
            player := some { pl with hp := { pl.hp with current := pl.hp.current - p.damage } },
            pool := pool ++ [pid] }) ∧
      (within_hit_radius pl.pos (vadd pos (smul dt (smul p.speed p.direction))) = false →
        update_projectile dt p pid pos enemies player pool =
          { proj := some { p with lifetime := p.lifetime - dt },
            pos := vadd pos (smul dt (smul p.speed p.direction)),
            enemies := enemies, player := some pl, pool := pool })) := by
  refine ⟨fun hexp => update_projectile_expired _ _ _ _ _ _ _ hexp,
    fun hact hfp => ?_, fun hact hfp pl hpl => ?_⟩
  · have hne : ¬ p.lifetime - dt ≤ 0 := not_le.mpr hact
    have heq := update_projectile_active_player dt p pid pos enemies player pool hne hfp
    by_cases hh : (enemies.any fun e =>
        within_hit_radius e.pos (vadd pos (smul dt (smul p.speed p.direction)))) = true
    · rw [if_pos hh] at heq
      rw [heq]
      exact ⟨rfl, rfl, fun _ => ⟨rfl, rfl⟩, fun hmiss => absurd hh (by rw [hmiss]; decide)⟩
    · rw [if_neg hh] at heq
      rw [heq]
      exact ⟨rfl, rfl, fun hhit => absurd hhit hh, fun _ => ⟨rfl, rfl⟩⟩
  · have hne : ¬ p.lifetime - dt ≤ 0 := not_le.mpr hact
    subst hpl
    have heq := update_projectile_active_enemy dt p pid pos enemies pl pool hne hfp
    by_cases hh : within_hit_radius pl.pos (vadd pos (smul dt (smul p.speed p.direction))) = true
    · rw [if_pos hh] at heq
      exact ⟨fun _ => heq, fun hmiss => absurd hh (by rw [hmiss]; decide)⟩
    · rw [if_neg hh] at heq
      exact ⟨fun hhit => absurd hhit hh, fun _ => heq⟩

/-- Witness for `update_projectile_frame_spec`: a still-live player
projectile at the origin moving up hits the enemy sitting at its new
position and is retired to the pool. -/
theorem update_projectile_frame_spec_witness :
    (update_projectile 1
      { direction := ((0 : ℚ), (1 : ℚ)), speed := 10, lifetime := 2, damage := 5,
        from_player := true }
      4 ((0 : ℚ), (0 : ℚ))
      [{ id := 0, pos := ((0 : ℚ), (10 : ℚ)), hp := { current := 20, max := 20 } }]
      none []).proj = none ∧
    (update_projectile 1
      { direction := ((0 : ℚ), (1 : ℚ)), speed := 10, lifetime := 2, damage := 5,
        from_player := true }
      4 ((0 : ℚ), (0 : ℚ))
      [{ id := 0, pos := ((0 : ℚ), (10 : ℚ)), hp := { current := 20, max := 20 } }]
      none []).pool = [] ++ [4] :=
  (update_projectile_frame_spec 1
      { direction := ((0 : ℚ), (1 : ℚ)), speed := 10, lifetime := 2, damage := 5,
        from_player := true }
      4 ((0 : ℚ), (0 : ℚ))
      [{ id := 0, pos := ((0 : ℚ), (10 : ℚ)), hp := { current := 20, max := 20 } }]
      none []).2.1 (by norm_num) rfl |>.2.2.1
    (by simp [within_hit_radius, dist2, vadd, smul, HIT_RADIUS])

/-- C5: a player-owned projectile never changes the player's health, and an
enemy-owned projectile never changes any enemy's health — a projectile
never damages its own faction. -/
theorem projectile_faction_exclusivity (dt : ℚ) (p : Projectile) (pid : Nat)
    (pos : Vec2) (enemies : List EnemyActor) (player : Option PlayerActor)
    (pool : List Nat) :
    (p.from_player = true →
      (update_projectile dt p pid pos enemies player pool).player = player) ∧
    (p.from_player = false →
      (update_projectile dt p pid pos enemies player pool).enemies = enemies) := by
  constructor <;> intro hfp <;> by_cases hexp : p.lifetime - dt ≤ 0
  · rw [update_projectile_expired dt p pid pos enemies player pool hexp]
  · rw [update_projectile_active_player dt p pid pos enemies player pool hexp hfp]
    split_ifs <;> rfl
  · rw [update_projectile_expired dt p pid pos enemies player pool hexp]
  · cases player with
    | none =>
        unfold update_projectile
        rw [if_neg hexp, hfp]
        rfl
    | some pl =>
        rw [update_projectile_active_enemy dt p pid pos enemies pl pool hexp hfp]
        split_ifs <;> rfl

/-- Witness for `projectile_faction_exclusivity`: an enemy projectile
passing right over an enemy leaves the enemy list untouched. -/
theorem projectile_faction_exclusivity_witness :
    (update_projectile 1
      { direction := ((0 : ℚ), (1 : ℚ)), speed := 10, lifetime := 2, damage := 5,
        from_player := false }
      4 ((0 : ℚ), (0 : ℚ))
      [{ id := 0, pos := ((0 : ℚ), (10 : ℚ)), hp := { current := 20, max := 20 } }]
      (some { pos := ((0 : ℚ), (10 : ℚ)), hp := { current := 30, max := 30 } })
      []).enemies =
      [{ id := 0, pos := ((0 : ℚ), (10 : ℚ)), hp := { current := 20, max := 20 } }] :=
  (projectile_faction_exclusivity 1
      { direction := ((0 : ℚ), (1 : ℚ)), speed := 10, lifetime := 2, damage := 5,
        from_player := false }
      4 ((0 : ℚ), (0 : ℚ))
      [{ id := 0, pos := ((0 : ℚ), (10 : ℚ)), hp := { current := 20, max := 20 } }]
      (some { pos := ((0 : ℚ), (10 : ℚ)), hp := { current := 30, max := 30 } })
      []).2 rfl

/-- C4: a basic-attack invocation with `basic_cooldown > 0` is a complete
no-op (no damage, no projectile, cooldown untouched); with the cooldown at
zero, the cooldown is reset to the equipment's `weapon_attack_cooldown`
regardless of weapon kind, targets, or whether anything was hit. -/
theorem basic_attack_cooldown_spec (player_pos dir : Vec2) (equip : EquipmentSet)
    (state : AttackState) (enemies : List EnemyActor) :
    (state.basic_cooldown > 0 →
      handle_basic_attack player_pos dir equip state enemies =
        { state := state, enemies := enemies, spawned := none }) ∧
    (state.basic_cooldown = 0 →
      (handle_basic_attack player_pos dir equip state enemies).state =
        { state with basic_cooldown := equip.weapon_attack_cooldown }) := by
  constructor
  · intro hcd
    unfold handle_basic_attack
    rw [if_pos hcd]
  · intro hcd
    have hno : ¬ state.basic_cooldown > 0 := by rw [hcd]; norm_num
    unfold handle_basic_attack
    rw [if_neg hno]
    cases equip.weapon_kind <;> rfl

/-- Witness for `basic_attack_cooldown_spec`: a ready melee attack with no
targets still resets the cooldown to the equipment's value. -/
theorem basic_attack_cooldown_spec_witness :
    (handle_basic_attack ((0 : ℚ), (0 : ℚ)) ((0 : ℚ), (1 : ℚ))
      { weapon_kind := WeaponKind.Melee, weapon_damage := 20,
        weapon_attack_cooldown := 0.6, weapon_projectile_speed := 400,
        weapon_projectile_lifetime := 1, melee_range := 80, melee_width := 40 }
      { basic_cooldown := 0, slash_cooldown := 0 } []).state =
      { basic_cooldown := 0.6, slash_cooldown := 0 } :=
  (basic_attack_cooldown_spec ((0 : ℚ), (0 : ℚ)) ((0 : ℚ), (1 : ℚ))
    { weapon_kind := WeaponKind.Melee, weapon_damage := 20,
      weapon_attack_cooldown := 0.6, weapon_projectile_speed := 400,
      weapon_projectile_lifetime := 1, melee_range := 80, melee_width := 40 }
    { basic_cooldown := 0, slash_cooldown := 0 } []).2 rfl

/-- C10: a ready basic attack does not apply the raw `weapon_damage`: each
enemy hit by the melee swing loses `weapon_damage * 1.5`, and a spawned
ranged projectile carries `weapon_damage * 1.3`. -/
theorem basic_attack_damage_scaling (player_pos dir : Vec2) (equip : EquipmentSet)
    (state : AttackState) (enemies : List EnemyActor)
    (hready : ¬ state.basic_cooldown > 0) (hdir : dir ≠ ((0 : ℚ), (0 : ℚ))) :
    (equip.weapon_kind = WeaponKind.Melee →
      (handle_basic_attack player_pos dir equip state enemies).enemies =
        enemies.map (fun e =>
          if melee_hit player_pos dir equip.melee_range equip.melee_width e.pos then
            { e with hp := { e.hp with
                current := e.hp.current - equip.weapon_damage * 1.5 } }
          else e)) ∧
    (equip.weapon_kind = WeaponKind.Ranged →
      (handle_basic_attack player_pos dir equip state enemies).spawned =
        some ({ direction := dir, speed := equip.weapon_projectile_speed,
                lifetime := equip.weapon_projectile_lifetime,
                damage := equip.weapon_damage * 1.3, from_player := true },
              player_pos)) := by
  constructor <;> intro hkind <;> unfold handle_basic_attack <;>
    rw [if_neg hready, hkind]
  · dsimp only
    unfold perform_melee_attack
    rw [if_neg hdir]
  · dsimp only
    unfold spawn_projectile
    rw [if_neg hdir]

/-- Witness for `basic_attack_damage_scaling`: a ranged attack with
`weapon_damage = 20` spawns a projectile carrying `20 * 1.3 = 26`. -/
theorem basic_attack_damage_scaling_witness :
    (handle_basic_attack ((0 : ℚ), (0 : ℚ)) ((0 : ℚ), (1 : ℚ))
      { weapon_kind := WeaponKind.Ranged, weapon_damage := 20,
        weapon_attack_cooldown := 0.5, weapon_projectile_speed := 400,
        weapon_projectile_lifetime := 1, melee_range := 60, melee_width := 30 }
      { basic_cooldown := 0, slash_cooldown := 0 } []).spawned =
      some ({ direction := ((0 : ℚ), (1 : ℚ)), speed := 400, lifetime := 1,
              damage := 20 * 1.3, from_player := true }, ((0 : ℚ), (0 : ℚ))) :=
  (basic_attack_damage_scaling ((0 : ℚ), (0 : ℚ)) ((0 : ℚ), (1 : ℚ))
    { weapon_kind := WeaponKind.Ranged, weapon_damage := 20,
      weapon_attack_cooldown := 0.5, weapon_projectile_speed := 400,
      weapon_projectile_lifetime := 1, melee_range := 60, melee_width := 30 }
    { basic_cooldown := 0, slash_cooldown := 0 } [] (by norm_num)
    (by simp)).2 rfl

/-- A sequence of damage applications `hp.current -= damage` as performed
by the attack resolvers (src/src/combat.rs lines 193, 237, 381;
src/src/combat_core.rs lines 120, 141, 233). -/
def apply_damages (h : Health) (ds : List ℚ) : Health :=
  ds.foldl (fun h d => { h with current := h.current - d }) h

lemma apply_damages_max (h : Health) (ds : List ℚ) :
    (apply_damages h ds).max = h.max := by
  induction ds generalizing h with
  | nil => rfl
  | cons d ds ih => exact ih { h with current := h.current - d }

lemma apply_damages_le (h : Health) (ds : List ℚ) (hd : ∀ d ∈ ds, 0 ≤ d) :
    (apply_damages h ds).current ≤ h.current := by
  induction ds generalizing h with
  | nil => exact le_refl _
  | cons d ds ih =>
      have h0 : 0 ≤ d := hd d (List.mem_cons_self d ds)
      have := ih { h with current := h.current - d }
        (fun x hx => hd x (List.mem_cons_of_mem d hx))
      calc (apply_damages { h with current := h.current - d } ds).current
          ≤ h.current - d := this
        _ ≤ h.current := by linarith

/-- C6: after any sequence of nonnegative damage applications starting from
`current <= max`, the downstream per-frame death steps restore the health
invariant for every actor still in the world: each enemy surviving
`cleanup_dead_enemies` and a player surviving `check_player_death` satisfy
`0 <= current <= max` (the resolvers themselves may transiently drive
`current` below zero). -/
theorem health_clamp_after_cleanup (es : List (EnemyActor × List ℚ))
    (player : PlayerActor) (pds : List ℚ)
    (hes : ∀ pr ∈ es, pr.1.hp.current ≤ pr.1.hp.max ∧ ∀ d ∈ pr.2, 0 ≤ d)
    (hp1 : player.hp.current ≤ player.hp.max) (hpds : ∀ d ∈ pds, 0 ≤ d) :
    (∀ e ∈ cleanup_dead_enemies
        (es.map fun pr => { pr.1 with hp := apply_damages pr.1.hp pr.2 }),
      0 ≤ e.hp.current ∧ e.hp.current ≤ e.hp.max) ∧
    (∀ pl, (check_player_death
        (some { player with hp := apply_damages player.hp pds })).1 = some pl →
      0 ≤ pl.hp.current ∧ pl.hp.current ≤ pl.hp.max) := by
  constructor
  · intro e he
    rw [cleanup_dead_enemies, List.mem_filter] at he
    obtain ⟨hmem, hpos⟩ := he
    rw [List.mem_map] at hmem
    obtain ⟨pr, hpr, rfl⟩ := hmem
    obtain ⟨hle, hd⟩ := hes pr hpr
    have hmax := apply_damages_max pr.1.hp pr.2
    have hcur := apply_damages_le pr.1.hp pr.2 hd
    constructor
    · simp only [Bool.not_eq_true', decide_eq_false_iff_not, not_le] at hpos
      exact le_of_lt hpos
    · dsimp only
      rw [hmax]
      exact le_trans hcur hle
  · intro pl hpl
    unfold check_player_death at hpl
    by_cases hdead : (apply_damages player.hp pds).current ≤ 0
    · simp only [hdead, if_pos] at hpl
      cases hpl
    · simp only [hdead, if_neg, if_false] at hpl
      obtain rfl : ({ player with hp := apply_damages player.hp pds } : PlayerActor) = pl := by
        simpa using hpl
      have hmax := apply_damages_max player.hp pds
      have hcur := apply_damages_le player.hp pds hpds
      exact ⟨le_of_not_le (by simpa using hdead), by dsimp only; rw [hmax]; linarith⟩

/-- Witness for `health_clamp_after_cleanup`: one enemy damaged `10 - 3`
and a player damaged `30 - 2` both survive their death checks with the
invariant intact. -/
theorem health_clamp_after_cleanup_witness :
    0 ≤ ({ id := 5, pos := ((0 : ℚ), (0 : ℚ)),
           hp := apply_damages { current := 10, max := 10 } [3] } : EnemyActor).hp.current ∧
    ({ id := 5, pos := ((0 : ℚ), (0 : ℚ)),
       hp := apply_damages { current := 10, max := 10 } [3] } : EnemyActor).hp.current ≤
      ({ id := 5, pos := ((0 : ℚ), (0 : ℚ)),
         hp := apply_damages { current := 10, max := 10 } [3] } : EnemyActor).hp.max :=
  (health_clamp_after_cleanup
      [({ id := 5, pos := ((0 : ℚ), (0 : ℚ)), hp := { current := 10, max := 10 } }, [3])]
      { pos := ((0 : ℚ), (0 : ℚ)), hp := { current := 30, max := 30 } } [2]
      (by intro pr hpr; simp at hpr; subst hpr; refine ⟨by norm_num, ?_⟩
          intro d hd; simp at hd; subst hd; norm_num)
      (by norm_num) (by intro d hd; simp at hd; subst hd; norm_num)).1
    { id := 5, pos := ((0 : ℚ), (0 : ℚ)),
      hp := apply_damages { current := 10, max := 10 } [3] }
    (by simp [cleanup_dead_enemies, apply_damages]; norm_num)

/-- C7 counterexample: with equipment damage 20 and the target
`Health{current:15, max:40}` at `(range/2, 0)` directly in front, one basic
melee attack leaves `current = -15`, not `-5` as claimed — the melee path
applies `weapon_damage * 1.5 = 30`, not the raw equipment damage. -/
theorem basic_melee_kill_cex :
    (handle_basic_attack ((0 : ℚ), (0 : ℚ)) ((0 : ℚ), (1 : ℚ))
      { weapon_kind := WeaponKind.Melee, weapon_damage := 20,
        weapon_attack_cooldown := 0.6, weapon_projectile_speed := 400,
        weapon_projectile_lifetime := 1, melee_range := 80, melee_width := 40 }
      { basic_cooldown := 0, slash_cooldown := 0 }
      [{ id := 7, pos := ((0 : ℚ), (40 : ℚ)), hp := { current := 15, max := 40 } }]).enemies =
      [{ id := 7, pos := ((0 : ℚ), (40 : ℚ)), hp := { current := -15, max := 40 } }] ∧
    ((-15 : ℚ) = -5 → False) := by
  constructor
  · norm_num [handle_basic_attack, perform_melee_attack, melee_hit, dot, vsub,
      rightOf, Prod.ext_iff]
  · intro h
    norm_num at h

/-- C7 amended: the applied melee damage is `weapon_damage * 1.5`, so the
target ends at `current = -15`; the downstream death steps then remove the
dead enemy from the world (`cleanup_dead_enemies`) and
`process_enemy_death` despawns it and purges its HP-bar indicator and
mapping entry. -/
theorem basic_melee_kill_amended :
    (handle_basic_attack ((0 : ℚ), (0 : ℚ)) ((0 : ℚ), (1 : ℚ))
      { weapon_kind := WeaponKind.Melee, weapon_damage := 20,
        weapon_attack_cooldown := 0.6, weapon_projectile_speed := 400,
        weapon_projectile_lifetime := 1, melee_range := 80, melee_width := 40 }
      { basic_cooldown := 0, slash_cooldown := 0 }
      [{ id := 7, pos := ((0 : ℚ), (40 : ℚ)), hp := { current := 15, max := 40 } }]).enemies =
      [{ id := 7, pos := ((0 : ℚ), (40 : ℚ)), hp := { current := -15, max := 40 } }] ∧
    cleanup_dead_enemies
      [{ id := 7, pos := ((0 : ℚ), (40 : ℚ)), hp := { current := -15, max := 40 } }] = [] ∧
    process_enemy_death
      [{ id := 7, pos := ((0 : ℚ), (40 : ℚ)), hp := { current := -15, max := 40 } }]
      [(7, 99)] = ([], []) := by
  refine ⟨?_, ?_, ?_⟩
  · norm_num [handle_basic_attack, perform_melee_attack, melee_hit, dot, vsub,
      rightOf, Prod.ext_iff]
  · norm_num [cleanup_dead_enemies]
  · norm_num [process_enemy_death]

/-- C8 counterexample: pressing key 2 with a Slash card in rotating slot 1
while the player's `slash_cooldown` is 5 (nonzero) still succeeds — the
enemy in front takes the full 60 Slash damage and the card is consumed —
and no cooldown is started: the `AttackState` is untouched.  The source
never consults or resets any per-slot cooldown for rotating slots. -/
theorem skill_slot_cooldown_cex :
    use_number_key_skills 1 true [{ ent := 10, id := SkillId.Slash }]
      ((0 : ℚ), (0 : ℚ)) ((0 : ℚ), (1 : ℚ)) (some ((0 : ℚ), (0 : ℚ))) none
      [{ id := 3, pos := ((0 : ℚ), (50 : ℚ)), hp := { current := 100, max := 100 } }]
      { basic_cooldown := 0, slash_cooldown := 5 } =
      { cards := [],
        enemies := [{ id := 3, pos := ((0 : ℚ), (50 : ℚ)),
                      hp := { current := 40, max := 100 } }],
        dash := none,
        state := { basic_cooldown := 0, slash_cooldown := 5 } } ∧
    ((5 : ℚ) = 0 → False) := by
  constructor
  · norm_num [use_number_key_skills, skill_slash, slash_hit, dot, vsub, rightOf,
      SLASH_EPS, SLASH_LENGTH, SLASH_WIDTH, SLASH_DAMAGE, Prod.ext_iff,
      List.eraseIdx]
  · intro h
    norm_num at h

/-- C8 amended: activating a rotating slot (index >= 1) succeeds exactly
when a `SkillCard` is present at that slot (and, for Slash, the player
exists); on success it casts Slash at the actor's position and facing and
immediately removes the card so the slot becomes empty; no per-slot
cooldown is consulted or started (the `AttackState` always passes through
unchanged); with no card at the slot the activation is a no-op. -/
theorem skill_slot_activation_amended (target_index : Nat) (has_dash : Bool)
    (cards : List SkillCardEntry) (movement dir : Vec2)
    (player_pos : Option Vec2) (dash : Option PlayerDash)
    (enemies : List EnemyActor) (state : AttackState)
    (hidx : 1 ≤ target_index) :
    ((use_number_key_skills target_index has_dash cards movement dir player_pos
        dash enemies state).state = state) ∧
    (cards[target_index - 1]? = none →
      use_number_key_skills target_index has_dash cards movement dir player_pos
        dash enemies state =
        { cards := cards, enemies := enemies, dash := dash, state := state }) ∧
    (∀ card, cards[target_index - 1]? = some card → card.id = SkillId.Slash →
      ∀ pos, player_pos = some pos →
        use_number_key_skills target_index has_dash cards movement dir player_pos
          dash enemies state =
          { cards := cards.eraseIdx (target_index - 1),
            enemies := skill_slash pos dir enemies,
            dash := dash, state := state }) := by
  have hne : ¬ target_index = 0 := by omega
  refine ⟨?_, ?_, ?_⟩
  · unfold use_number_key_skills
    rw [if_neg hne]
    cases hc : cards[target_index - 1]? with
    | none => rfl
    | some card =>
        obtain ⟨ent, cid⟩ := card
        cases cid with
        | Dash => rfl
        | Slash => cases player_pos <;> rfl
  · intro hnone
    unfold use_number_key_skills
    rw [if_neg hne, hnone]
  · intro card hsome hslash pos hpos
    obtain ⟨ent, cid⟩ := card
    obtain rfl : cid = SkillId.Slash := hslash
    unfold use_number_key_skills
    rw [if_neg hne, hsome, hpos]

/-- Witness for `skill_slot_activation_amended`: pressing key 3 with only
one rotating card equipped is a no-op. -/
theorem skill_slot_activation_amended_witness :
    use_number_key_skills 2 true [{ ent := 10, id := SkillId.Slash }]
      ((0 : ℚ), (0 : ℚ)) ((0 : ℚ), (1 : ℚ)) (some ((0 : ℚ), (0 : ℚ))) none []
      { basic_cooldown := 0, slash_cooldown := 0 } =
      { cards := [{ ent := 10, id := SkillId.Slash }], enemies := [],
        dash := none, state := { basic_cooldown := 0, slash_cooldown := 0 } } :=
  (skill_slot_activation_amended 2 true [{ ent := 10, id := SkillId.Slash }]
    ((0 : ℚ), (0 : ℚ)) ((0 : ℚ), (1 : ℚ)) (some ((0 : ℚ), (0 : ℚ))) none []
    { basic_cooldown := 0, slash_cooldown := 0 } (by norm_num)).2.1 rfl

/-- C9 counterexample: the `combat_core.rs` reconciliation pass creates an
indicator for an enemy at full health (`current = max = 40`): after one
pass on an empty map the mapping holds an entry for it even though the
"damaged but alive" set is empty, refuting "an indicator exists ... exactly
for the tracked enemies that are damaged but alive" for that pass. -/
theorem hp_bar_full_health_cex :
    (sync_enemy_hp_bars_core
      [{ id := 0, pos := ((0 : ℚ), (0 : ℚ)), hp := { current := 40, max := 40 } }]
      [] 100).1 = [(0, { bar := 100, frac := 1 })] ∧
    ¬ ((0 : ℚ) < 40 ∧ (40 : ℚ) < 40) := by
  constructor
  · norm_num [sync_enemy_hp_bars_core, CoreBar.mk.injEq, Prod.ext_iff]
  · norm_num

lemma combat_bar_step_keeps (acc : List (Nat × Nat) × Nat) (e : EnemyActor)
    (kv : Nat × Nat) (h : kv ∈ acc.1) : kv ∈ (combat_bar_step acc e).1 := by
  unfold combat_bar_step
  split_ifs
  · exact h
  · exact List.mem_append_left _ h

lemma combat_bar_fold_keeps (l : List EnemyActor) (acc : List (Nat × Nat) × Nat)
    (kv : Nat × Nat) (h : kv ∈ acc.1) : kv ∈ (l.foldl combat_bar_step acc).1 := by
  induction l generalizing acc with
  | nil => exact h
  | cons e l ih => exact ih _ (combat_bar_step_keeps acc e kv h)

lemma combat_bar_fold_covers (l : List EnemyActor) (acc : List (Nat × Nat) × Nat)
    (e : EnemyActor) (he : e ∈ l) :
    ∃ bar, (e.id, bar) ∈ (l.foldl combat_bar_step acc).1 := by
  induction l generalizing acc with
  | nil => cases he
  | cons e2 l ih =>
      rcases List.mem_cons.mp he with rfl | hmem
      · by_cases hany : (acc.1.any fun kv => kv.1 == e.id) = true
        · obtain ⟨kv, hkv, hid⟩ := List.any_eq_true.mp hany
          have hkey : kv.1 = e.id := by simpa using hid
          refine ⟨kv.2, combat_bar_fold_keeps l _ _ ?_⟩
          have : kv = (e.id, kv.2) := by
            rw [← hkey]
          exact this ▸ combat_bar_step_keeps acc e kv hkv
        · refine ⟨acc.2, combat_bar_fold_keeps l _ _ ?_⟩
          unfold combat_bar_step
          rw [if_neg hany]
          exact List.mem_append_right _ (List.mem_singleton.mpr rfl)
      · exact ih _ hmem

lemma damaged_enemies_mem (enemies : List EnemyActor) (e : EnemyActor) :
    e ∈ damaged_enemies enemies ↔
      e ∈ enemies ∧ 0 < e.hp.current ∧ e.hp.current < e.hp.max := by
  unfold damaged_enemies
  rw [List.mem_mergeSort, List.mem_filter]
  simp

/-- C9 amended: for the `combat.rs` reconciliation pass (which filters on
`0 < current < max`), an indicator exists in the owner→indicator mapping
after the pass exactly for the enemies that are damaged but alive: full
health (or dead, or absent) owners have no entry, damaged ones always get
one.  The duplicated `combat_core.rs` pass instead keeps an indicator for
every alive enemy — full health included — created with
`ratio = current/max` (see the counterexample). -/
theorem hp_bar_damaged_set_amended (enemies : List EnemyActor)
    (bar_map : List (Nat × Nat)) (next : Nat) (owner : Nat) :
    (∃ bar, (owner, bar) ∈ (sync_enemy_hp_bars_combat enemies bar_map next).1) ↔
    (∃ e ∈ enemies, e.id = owner ∧ 0 < e.hp.current ∧ e.hp.current < e.hp.max) := by
  unfold sync_enemy_hp_bars_combat
  constructor
  · rintro ⟨bar, hmem⟩
    rw [List.mem_filter] at hmem
    obtain ⟨-, hany⟩ := hmem
    obtain ⟨e, he, hid⟩ := List.any_eq_true.mp hany
    have hid2 : e.id = owner := by simpa using hid
    obtain ⟨hin, h1, h2⟩ := (damaged_enemies_mem enemies e).mp he
    exact ⟨e, hin, hid2, h1, h2⟩
  · rintro ⟨e, he, rfl, h1, h2⟩
    have hd : e ∈ damaged_enemies enemies :=
      (damaged_enemies_mem enemies e).mpr ⟨he, h1, h2⟩
    obtain ⟨bar, hbar⟩ :=
      combat_bar_fold_covers (damaged_enemies enemies) (bar_map, next) e hd
    refine ⟨bar, ?_⟩
    rw [List.mem_filter]
    exact ⟨hbar, List.any_eq_true.mpr ⟨e, hd, by simp⟩⟩

end Oplus
